import Mathlib

/-!
Verification of the Onshape-to-MuJoCo converter core.

This file shallowly embeds the transform/kinematics pipeline of
`src/explore/converter.py` (pose extraction, kinematic-tree assembly and
MJCF serialization) and the mate-classification part of
`src/explore/explore_assembly.py` (`analyze_for_mujoco`), and proves or
refutes the specification claims about them.

Numeric modelling: the Python code computes with IEEE doubles; the
embedding uses exact rationals (and reals for the normalized quaternion).
All concrete inputs used below are exactly representable, so the embedded
arithmetic agrees with the source on them.
-/

namespace OnMj

/-- Componentwise rational 3-vector (positions, axes, origins). -/
abbrev Vec3 := ℚ × ℚ × ℚ

/-- Componentwise difference of 3-vectors (numpy array subtraction as used
at `converter.py:127-130`). -/
def sub3 (a b : Vec3) : Vec3 := (a.1 - b.1, a.2.1 - b.2.1, a.2.2 - b.2.2)

/-- A 3 by 3 rotation block; field `aij` is row `i`, column `j`. -/
structure Mat3 where
  a00 : ℚ
  a01 : ℚ
  a02 : ℚ
  a10 : ℚ
  a11 : ℚ
  a12 : ℚ
  a20 : ℚ
  a21 : ℚ
  a22 : ℚ
deriving DecidableEq

/-- A 16-value flattened homogeneous transform in Onshape column-major
layout (`converter.py:20-27`). -/
abbrev Transform := Fin 16 → ℚ

/-- Translation components at flat offsets 3, 7, 11 (`converter.py:27`). -/
def posOf (t : Transform) : Vec3 := (t 3, t 7, t 11)

/-- Rotation block assembled from the column triplets at offsets
0,4,8 / 1,5,9 / 2,6,10 (`converter.py:30-34`). -/
def rotOf (t : Transform) : Mat3 :=
  ⟨t 0, t 4, t 8, t 1, t 5, t 9, t 2, t 6, t 10⟩

/-- Trace of a rotation block. -/
def tr3 (m : Mat3) : ℚ := m.a00 + m.a11 + m.a22

/-- Determinant of a rotation block. -/
def det3 (m : Mat3) : ℚ :=
  m.a00 * (m.a11 * m.a22 - m.a12 * m.a21)
    - m.a01 * (m.a10 * m.a22 - m.a12 * m.a20)
    + m.a02 * (m.a10 * m.a21 - m.a11 * m.a20)

/-- Unnormalized quaternion in scipy component order (x, y, z, w). -/
structure RQuat where
  qx : ℚ
  qy : ℚ
  qz : ℚ
  qw : ℚ
deriving DecidableEq

/-- Model of `scipy.spatial.transform.Rotation.from_matrix` before its final
normalization: Shepperd's method, branching on the first maximum of
`[m00, m11, m22, trace]` (numpy `argmax` tie-breaking).  This is the
conversion invoked at `converter.py:36`; the spec (§4.1) describes the same
"largest diagonal/trace term" selection.  scipy applies no double-cover
canonicalization at this point (`as_quat` defaults to `canonical=False`). -/
def shepperd (m : Mat3) : RQuat :=
  if m.a00 ≥ m.a11 ∧ m.a00 ≥ m.a22 ∧ m.a00 ≥ tr3 m then
    ⟨1 - tr3 m + 2 * m.a00, m.a10 + m.a01, m.a20 + m.a02, m.a21 - m.a12⟩
  else if m.a11 ≥ m.a22 ∧ m.a11 ≥ tr3 m then
    ⟨m.a01 + m.a10, 1 - tr3 m + 2 * m.a11, m.a21 + m.a12, m.a02 - m.a20⟩
  else if m.a22 ≥ tr3 m then
    ⟨m.a02 + m.a20, m.a12 + m.a21, 1 - tr3 m + 2 * m.a22, m.a10 - m.a01⟩
  else
    ⟨m.a21 - m.a12, m.a02 - m.a20, m.a10 - m.a01, 1 + tr3 m⟩

/-- Squared euclidean norm of an unnormalized quaternion. -/
def rqNormSq (q : RQuat) : ℚ := q.qx ^ 2 + q.qy ^ 2 + q.qz ^ 2 + q.qw ^ 2

theorem one_le_rqNormSq_shepperd (m : Mat3) : 1 ≤ rqNormSq (shepperd m) := by
  unfold shepperd rqNormSq tr3
  split_ifs with h1 h2 h3
  all_goals dsimp only
  · obtain ⟨ha, hb, hc⟩ := h1
    have hkey : m.a11 + m.a22 ≤ m.a00 := by
      rcases le_or_lt 0 m.a00 with hs | hs
      · linarith
      · linarith
    have hcomp : 1 ≤ 1 - (m.a00 + m.a11 + m.a22) + 2 * m.a00 := by linarith
    nlinarith [sq_nonneg (m.a10 + m.a01), sq_nonneg (m.a20 + m.a02),
      sq_nonneg (m.a21 - m.a12)]
  · obtain ⟨hb, hc⟩ := h2
    have ha : m.a00 < m.a11 := by
      by_contra hcon
      push_neg at hcon
      exact h1 ⟨hcon, le_trans hb hcon, le_trans hc hcon⟩
    have hkey : m.a00 + m.a22 ≤ m.a11 := by
      rcases le_or_lt 0 m.a11 with hs | hs
      · linarith
      · linarith
    have hcomp : 1 ≤ 1 - (m.a00 + m.a11 + m.a22) + 2 * m.a11 := by linarith
    nlinarith [sq_nonneg (m.a01 + m.a10), sq_nonneg (m.a21 + m.a12),
      sq_nonneg (m.a02 - m.a20)]
  · have hb : m.a11 < m.a22 := by
      by_contra hcon
      push_neg at hcon
      exact h2 ⟨hcon, le_trans h3 hcon⟩
    have ha : m.a00 < m.a22 := by
      by_contra hcon
      push_neg at hcon
      exact h1 ⟨le_trans (le_of_lt hb) hcon, hcon, le_trans h3 hcon⟩
    have hkey : m.a00 + m.a11 ≤ m.a22 := by
      rcases le_or_lt 0 m.a22 with hs | hs
      · linarith
      · linarith
    have hcomp : 1 ≤ 1 - (m.a00 + m.a11 + m.a22) + 2 * m.a22 := by linarith
    nlinarith [sq_nonneg (m.a02 + m.a20), sq_nonneg (m.a12 + m.a21),
      sq_nonneg (m.a10 - m.a01)]
  · push_neg at h3
    have hb : m.a11 < m.a00 + m.a11 + m.a22 := by
      by_contra hcon
      push_neg at hcon
      exact h2 ⟨by linarith, hcon⟩
    have ha : m.a00 < m.a00 + m.a11 + m.a22 := by
      by_contra hcon
      push_neg at hcon
      exact h1 ⟨by linarith, by linarith, hcon⟩
    have htr : 0 < m.a00 + m.a11 + m.a22 := by linarith
    nlinarith [sq_nonneg (m.a21 - m.a12), sq_nonneg (m.a02 - m.a20),
      sq_nonneg (m.a10 - m.a01)]

/-- Model of `Rotation.from_matrix(rot).as_quat()` followed by the MuJoCo
reorder `[quat[3], quat[0], quat[1], quat[2]]` (`converter.py:36-39`):
the Shepperd quaternion normalized to unit length, scalar part first. -/
noncomputable def quatMujoco (m : Mat3) : Fin 4 → ℝ :=
  ![((shepperd m).qw : ℝ) / Real.sqrt ((rqNormSq (shepperd m) : ℝ)),
    ((shepperd m).qx : ℝ) / Real.sqrt ((rqNormSq (shepperd m) : ℝ)),
    ((shepperd m).qy : ℝ) / Real.sqrt ((rqNormSq (shepperd m) : ℝ)),
    ((shepperd m).qz : ℝ) / Real.sqrt ((rqNormSq (shepperd m) : ℝ))]

/-- Model of `transform_to_pos_quat` (`converter.py:20-40`): position from
flat offsets 3, 7, 11 and the MuJoCo-ordered unit quaternion of the rotation
block.  The source performs no validation of the rotation block. -/
noncomputable def transform_to_pos_quat (t : Transform) : Vec3 × (Fin 4 → ℝ) :=
  (posOf t, quatMujoco (rotOf t))

theorem sqrt_rqNormSq_pos (m : Mat3) :
    0 < Real.sqrt ((rqNormSq (shepperd m) : ℝ)) := by
  have h1 : (1 : ℚ) ≤ rqNormSq (shepperd m) := one_le_rqNormSq_shepperd m
  have h2 : (1 : ℝ) ≤ (rqNormSq (shepperd m) : ℝ) := by exact_mod_cast h1
  exact Real.sqrt_pos.mpr (by linarith)

/-- Exactly-six-digit zero-padded decimal rendering of `m % 10^6`. -/
def pad6 (m : ℕ) : String :=
  ⟨[Nat.digitChar (m / 100000 % 10), Nat.digitChar (m / 10000 % 10),
    Nat.digitChar (m / 1000 % 10), Nat.digitChar (m / 100 % 10),
    Nat.digitChar (m / 10 % 10), Nat.digitChar (m % 10)]⟩

/-- Fixed-point rendering of a scaled integer `n` as `n / 10^6` with exactly
six digits after the decimal point. -/
def intToFixed6 (n : ℤ) : String :=
  (if n < 0 then "-" else "") ++ toString (n.natAbs / 1000000) ++ "."
    ++ pad6 (n.natAbs % 1000000)

/-- Rounding of `q * 10^6` to the nearest integer (halves up), computed on
the numerator/denominator representation:
`⌊(2 * 10^6 * num + den) / (2 * den)⌋ = ⌊q * 10^6 + 1/2⌋`. -/
def rnd6 (q : ℚ) : ℤ := Int.fdiv (2000000 * q.num + (q.den : ℤ)) (2 * (q.den : ℤ))

/-- Model of the f-string conversion `{v:.6f}` used by `fmt_pos` and
`fmt_quat` (`converter.py:120-124`): fixed six-decimal formatting.  The
model rounds the exact rational (Python rounds the underlying binary
double, half-to-even, and renders a sign for negative values rounding to
zero; identical on every value arising in the inputs considered, which
are tie-free and not in (-5e-7, 0)). -/
def fmt6 (q : ℚ) : String := intToFixed6 (rnd6 q)

/-- Model of `fmt_pos` (`converter.py:120-121`). -/
def fmt_pos (p : Vec3) : String :=
  fmt6 p.1 ++ " " ++ fmt6 p.2.1 ++ " " ++ fmt6 p.2.2

theorem pad6_length (m : ℕ) : (pad6 m).length = 6 := rfl

theorem fmt6_sixDecimals (q : ℚ) :
    ∃ pre k, fmt6 q = pre ++ ("." ++ pad6 k) ∧ (pad6 k).length = 6 := by
  refine ⟨(if rnd6 q < 0 then "-" else "") ++ toString ((rnd6 q).natAbs / 1000000),
    (rnd6 q).natAbs % 1000000, ?_, rfl⟩
  simp [fmt6, intToFixed6, String.append_assoc]

example : fmt6 (mkRat 1 10) = "0.100000" := by decide
example : fmt6 0 = "0.000000" := by decide
example : fmt6 (mkRat (-1) 20) = "-0.050000" := by decide
example : fmt_pos (mkRat 1 10, 0, 0) = "0.100000 0.000000 0.000000" := by decide

/-- ASCII lowercasing of one character (model of Python `str.lower` on the
ASCII names occurring in this data). -/
def lowerChar (c : Char) : Char :=
  if 65 ≤ c.toNat ∧ c.toNat ≤ 90 then Char.ofNat (c.toNat + 32) else c

/-- ASCII lowercasing of a string. -/
def lowerStr (s : String) : String := ⟨s.data.map lowerChar⟩

/-- Contiguous-sublist test on character lists (model of the Python
substring operator `in`). -/
def subListOf (p : List Char) : List Char → Bool
  | [] => p.isEmpty
  | c :: rest => p.isPrefixOf (c :: rest) || subListOf p rest

/-- Model of `pat in s.lower()` for an already-lowercase pattern `pat`
(`converter.py:62,104-111`). -/
def nameHas (pat : String) (s : String) : Bool :=
  subListOf pat.data (lowerStr s).data

example : nameHas "motor" "DC Motor 12" = true := by decide
example : nameHas "joint #1" "Joint #1" = true := by decide
example : nameHas "horn" "Motor" = false := by decide

/-- An entry of `rootAssembly.instances` as read by the converter:
`inst['id']` and `inst['name']` (`converter.py:48,62,74,104`). -/
structure PInstance where
  id : String
  name : String
deriving DecidableEq

/-- An entry of `rootAssembly.occurrences` as read by the converter:
`occ['path'][0]` (its key), the 16-value transform, and the `fixed` /
`hidden` flags (`converter.py:49,55-56,70`).  The `path` array of a valid
occurrence is nonempty; only its first element is ever read. -/
structure POccurrence where
  path0 : String
  transform : Transform
  fixed : Bool
  hidden : Bool

/-- One element of `featureData.matedEntities`: the participant occurrence
key `matedOccurrence[0]` and the mate-connector frame
(`converter.py:83-92`). -/
structure MatedEntity where
  matedOccurrence0 : String
  zAxis : Vec3
  origin : Vec3
deriving DecidableEq

/-- A mate feature as read by the converter: `featureData.mateType` and
`featureData.matedEntities` (`converter.py:80-84`).  The optional limit
parameters of the raw record are carried but never read by the
converter. -/
structure CFeature where
  mateType : String
  matedEntities : List MatedEntity
  limits : List (String × String)
deriving DecidableEq

/-- The `rootAssembly` fields consumed by `converter.main`
(`converter.py:47-50`). -/
structure Assembly where
  instances : List PInstance
  occurrences : List POccurrence
  features : List CFeature

/-- An entry of the mesh-export manifest `08_exported_meshes.json`:
`{instanceId, filename}` (`converter.py:50`). -/
structure MeshEntry where
  instanceId : String
  filename : String
deriving DecidableEq

/-- Failures of the pipeline.  The Python script fails with an uncaught
`KeyError`/`IndexError` at the corresponding dictionary or list accesses;
the embedding gives the two lookup families the names the spec uses
(§7).  The carried string is the offending key (`"None"` for Python
`None`). -/
inductive ConvError where
  | MissingOccurrence : String → ConvError
  | MissingGeometry : String → ConvError
deriving DecidableEq

/-- First instance with the given id (`instances[k]`; ids are unique in a
valid input, so first-match lookup agrees with the Python dict built at
`converter.py:48`). -/
def instFind (a : Assembly) (k : String) : Option PInstance :=
  a.instances.find? (fun i => i.id == k)

/-- First occurrence keyed by the given `path[0]` (`occurrences[k]`,
dict built at `converter.py:49`; path keys are unique in a valid input). -/
def occFind (a : Assembly) (k : String) : Option POccurrence :=
  a.occurrences.find? (fun o => o.path0 == k)

/-- Manifest filename for an instance id (`mesh_map[k]`, dict built at
`converter.py:50`). -/
def meshFind (ms : List MeshEntry) (k : String) : Option String :=
  (ms.find? (fun e => e.instanceId == k)).map (fun e => e.filename)

/-- Rendering of an optional key for error reports (Python raises
`KeyError(None)` when the key expression is `None`). -/
def keyStr (k : Option String) : String := k.getD "None"

/-- Dictionary access `instances[k]` with a possibly-`None` key. -/
def getInstE (a : Assembly) (k : Option String) : Except ConvError PInstance :=
  match k.bind (instFind a) with
  | some i => .ok i
  | none => .error (.MissingOccurrence (keyStr k))

/-- Dictionary access `occurrences[k]` with a possibly-`None` key,
returning the resolved key together with the occurrence. -/
def getOccKE (a : Assembly) (k : Option String) :
    Except ConvError (String × POccurrence) :=
  match k with
  | none => .error (.MissingOccurrence "None")
  | some s =>
    match occFind a s with
    | none => .error (.MissingOccurrence s)
    | some o => .ok (s, o)

/-- Run an effectful check over a list, stopping at the first failure
(the Python `for` loops at `converter.py:73-76` and `79-94` raise at the
first failing access). -/
def checkListE (f : α → Except ConvError Unit) : List α → Except ConvError Unit
  | [] => .ok ()
  | x :: xs =>
    match f x with
    | .ok _ => checkListE f xs
    | .error e => .error e

/-- Root key selection (`converter.py:52-64`): the first occurrence whose
`fixed` flag is set; if that yields a falsy value (no fixed occurrence, or
an empty key), the first instance whose lowercased name contains
`"motor"`; a still-unresolved key stays as it was (Python does not
re-check). -/
def rootKey (a : Assembly) : Option String :=
  let f := (a.occurrences.find? (fun o => o.fixed)).map (fun o => o.path0)
  if f = none ∨ f = some "" then
    match (a.instances.find? (fun i => nameHas "motor" i.name)).map (fun i => i.id) with
    | some i => some i
    | none => f
  else f

/-- The per-occurrence instance lookups of the world-position printing loop
(`converter.py:73-76`): `instances[id]` must succeed for every occurrence
key. -/
def occInstCheck (a : Assembly) : Except ConvError Unit :=
  checkListE (fun o => (getInstE a (some o.path0)).map (fun _ => ())) a.occurrences

/-- The per-feature accesses of the cylindrical-mate reporting loop
(`converter.py:79-94`): for a `CYLINDRICAL` mate, `matedEntities[0]`,
`matedEntities[1]` and the two participant instance lookups must
succeed. -/
def cylCheck (a : Assembly) (f : CFeature) : Except ConvError Unit :=
  if f.mateType = "CYLINDRICAL" then
    match f.matedEntities.get? 0, f.matedEntities.get? 1 with
    | some e0, some e1 =>
      (getInstE a (some e0.matedOccurrence0)).bind fun _ =>
        (getInstE a (some e1.matedOccurrence0)).map fun _ => ()
    | _, _ => .error (.MissingOccurrence "matedEntities")
  else .ok ()

/-- Result of the name-matching scan over instances. -/
structure ScanIds where
  motor : Option String
  horn : Option String
  joint1 : Option String
  joint2 : Option String
deriving DecidableEq

/-- One step of the scan at `converter.py:103-112`: an `if`/`elif` chain on
the lowercased instance name; later matches overwrite earlier ones. -/
def scanStep (s : ScanIds) (i : PInstance) : ScanIds :=
  if nameHas "motor" i.name then { s with motor := some i.id }
  else if nameHas "horn" i.name then { s with horn := some i.id }
  else if nameHas "joint #1" i.name || nameHas "joint_1" i.name then
    { s with joint1 := some i.id }
  else if nameHas "joint #2" i.name || nameHas "joint_2" i.name then
    { s with joint2 := some i.id }
  else s

/-- The name-matching scan (`converter.py:98-112`), iterating instances in
insertion order. -/
def nameScan (a : Assembly) : ScanIds :=
  a.instances.foldl scanStep ⟨none, none, none, none⟩

/-- The data computed by the tree-building part of `converter.main`
(`converter.py:52-130`): the four resolved body keys, their world
positions and rotation blocks, and the parent-relative offsets. -/
structure Built where
  motorId : String
  hornId : String
  joint1Id : String
  joint2Id : String
  motorPos : Vec3
  hornPos : Vec3
  j1Pos : Vec3
  j2Pos : Vec3
  motorRot : Mat3
  hornRot : Mat3
  j1Rot : Mat3
  j2Rot : Mat3
  hornRel : Vec3
  j2Rel : Vec3
  j1Rel : Vec3
deriving DecidableEq

/-- The tree-building part of `converter.main` (`converter.py:52-130`), in
source order: root selection and its two dictionary accesses, the
per-occurrence instance lookups, the cylindrical-mate accesses, the name
scan, the four occurrence lookups, and the relative-position
subtractions `horn_rel = horn_pos - motor_pos`,
`j2_rel = j2_pos - motor_pos`, `j1_rel = j1_pos - horn_pos`. -/
def buildTree (a : Assembly) : Except ConvError Built :=
  match getInstE a (rootKey a) with
  | .error e => .error e
  | .ok _ =>
    match getOccKE a (rootKey a) with
    | .error e => .error e
    | .ok _ =>
      match occInstCheck a with
      | .error e => .error e
      | .ok _ =>
        match checkListE (cylCheck a) a.features with
        | .error e => .error e
        | .ok _ =>
          match getOccKE a (nameScan a).motor with
          | .error e => .error e
          | .ok mo =>
            match getOccKE a (nameScan a).horn with
            | .error e => .error e
            | .ok ho =>
              match getOccKE a (nameScan a).joint1 with
              | .error e => .error e
              | .ok j1 =>
                match getOccKE a (nameScan a).joint2 with
                | .error e => .error e
                | .ok j2 =>
                  .ok
                    { motorId := mo.1
                      hornId := ho.1
                      joint1Id := j1.1
                      joint2Id := j2.1
                      motorPos := posOf mo.2.transform
                      hornPos := posOf ho.2.transform
                      j1Pos := posOf j1.2.transform
                      j2Pos := posOf j2.2.transform
                      motorRot := rotOf mo.2.transform
                      hornRot := rotOf ho.2.transform
                      j1Rot := rotOf j1.2.transform
                      j2Rot := rotOf j2.2.transform
                      hornRel := sub3 (posOf ho.2.transform) (posOf mo.2.transform)
                      j2Rel := sub3 (posOf j2.2.transform) (posOf mo.2.transform)
                      j1Rel := sub3 (posOf j1.2.transform) (posOf ho.2.transform) }

/-- A node of the kinematic tree: body name, world position (from its
occurrence transform), the parent-relative position actually emitted, and
child bodies. -/
structure KinBody where
  name : String
  worldPos : Vec3
  localPos : Vec3
  children : List KinBody

/-- Parent/child pairs of a kinematic tree, parents first, in emission
order. -/
def KinBody.edges (k : KinBody) : List (KinBody × KinBody) :=
  k.children.map (fun c => (k, c))
    ++ (k.children.attach.map (fun c => KinBody.edges c.1)).flatten
termination_by k
decreasing_by
  obtain ⟨c, hc⟩ := c
  cases k with
  | mk n w l cs =>
    have h1 := List.sizeOf_lt_of_mem hc
    simp only [KinBody.mk.sizeOf_spec]
    simp only at h1
    omega

/-- The tree emitted by the MJCF template (`converter.py:157-188`): motor
at the root with its world position; joint_2 and horn as children of motor
with their relative offsets; joint_1 as child of horn. -/
def Built.tree (b : Built) : KinBody :=
  { name := "motor", worldPos := b.motorPos, localPos := b.motorPos,
    children :=
      [ { name := "joint_2", worldPos := b.j2Pos, localPos := b.j2Rel,
          children := [] },
        { name := "horn", worldPos := b.hornPos, localPos := b.hornRel,
          children :=
            [ { name := "joint_1", worldPos := b.j1Pos, localPos := b.j1Rel,
                children := [] } ] } ] }

/-- A serialized joint element: name, type, axis, range and damping
attributes (`converter.py:176`). -/
structure XJoint where
  name : String
  jointType : String
  axis : Vec3
  rangeMin : ℚ
  rangeMax : ℚ
  damping : ℚ
deriving DecidableEq

/-- A serialized actuator element (`converter.py:191`). -/
structure XActuator where
  name : String
  joint : String
  gear : ℚ
  ctrlMin : ℚ
  ctrlMax : ℚ
deriving DecidableEq

/-- A serialized nested body element: the position attribute string, the
constant inertial position attribute, the rotation blocks whose formatted
quaternions fill the body / geom `quat` attributes (when present), the
referenced mesh asset, the contained joint element (when present) and the
nested child bodies (`converter.py:162-187`). -/
structure XBody where
  name : String
  posStr : String
  inertialPosStr : String
  quatRot : Option Mat3
  geomMesh : Option String
  geomQuatRot : Option Mat3
  joint : Option XJoint
  children : List XBody

/-- The serialized document: mesh assets (asset name, manifest filename),
the constant ground and light position attributes, the body tree and the
actuator list (`converter.py:137-194`). -/
structure Mjcf where
  assets : List (String × String)
  groundPosStr : String
  lightPosStr : String
  root : XBody
  actuators : List XActuator

/-- The single hard-coded joint element of the template
(`converter.py:176`):
`<joint name="servo_rotation" type="hinge" axis="0 -1 0"
range="-1.5708 1.5708" damping="0.01"/>`. -/
def servoJoint : XJoint :=
  { name := "servo_rotation", jointType := "hinge", axis := (0, -1, 0),
    rangeMin := mkRat (-15708) 10000, rangeMax := mkRat 15708 10000,
    damping := mkRat 1 100 }

/-- The single hard-coded actuator element of the template
(`converter.py:191`):
`<motor name="servo" joint="servo_rotation" gear="100" ctrllimited="true"
ctrlrange="-1 1"/>`. -/
def servoActuator : XActuator :=
  { name := "servo", joint := "servo_rotation", gear := 100,
    ctrlMin := -1, ctrlMax := 1 }

/-- The `joint_1` body element (`converter.py:181-185`): child of horn,
static, with the horn-relative offset. -/
def j1Body (b : Built) : XBody :=
  { name := "joint_1", posStr := fmt_pos b.j1Rel, inertialPosStr := "0 0 0",
    quatRot := none, geomMesh := some "Joint_1", geomQuatRot := some b.j1Rot,
    joint := none, children := [] }

/-- The `horn` body element (`converter.py:174-186`): child of motor,
carrying the hard-coded servo joint and the `joint_1` child. -/
def hornBody (b : Built) : XBody :=
  { name := "horn", posStr := fmt_pos b.hornRel, inertialPosStr := "0 0 0",
    quatRot := none, geomMesh := some "Horn", geomQuatRot := some b.hornRot,
    joint := some servoJoint, children := [j1Body b] }

/-- The `joint_2` body element (`converter.py:167-171`): child of motor,
static. -/
def j2Body (b : Built) : XBody :=
  { name := "joint_2", posStr := fmt_pos b.j2Rel, inertialPosStr := "0 0 0",
    quatRot := none, geomMesh := some "Joint_2", geomQuatRot := some b.j2Rot,
    joint := none, children := [] }

/-- The `motor` root body element (`converter.py:162-187`), positioned at
its world position, with `joint_2` and `horn` as children. -/
def motorBody (b : Built) : XBody :=
  { name := "motor", posStr := fmt_pos b.motorPos, inertialPosStr := "0 0 0",
    quatRot := some b.motorRot, geomMesh := some "Motor", geomQuatRot := none,
    joint := none, children := [j2Body b, hornBody b] }

/-- The document built by the f-string template (`converter.py:137-194`)
once the four mesh filenames have been resolved. -/
def mkMjcf (b : Built) (fMotor fHorn fJ1 fJ2 : String) : Mjcf :=
  { assets :=
      [("Motor", fMotor), ("Horn", fHorn), ("Joint_1", fJ1), ("Joint_2", fJ2)],
    groundPosStr := "0 0 0",
    lightPosStr := "0.3 0.3 0.5",
    root := motorBody b,
    actuators := [servoActuator] }

/-- The serializing part of `converter.main` (`converter.py:137-197`): the
f-string evaluates the four `mesh_map[...]` accesses in template order
(`converter.py:151-154`) and raises `KeyError` at the first missing one;
otherwise the document is produced. -/
def serialize (ms : List MeshEntry) (b : Built) : Except ConvError Mjcf :=
  match meshFind ms b.motorId with
  | none => .error (.MissingGeometry b.motorId)
  | some fMotor =>
    match meshFind ms b.hornId with
    | none => .error (.MissingGeometry b.hornId)
    | some fHorn =>
      match meshFind ms b.joint1Id with
      | none => .error (.MissingGeometry b.joint1Id)
      | some fJ1 =>
        match meshFind ms b.joint2Id with
        | none => .error (.MissingGeometry b.joint2Id)
        | some fJ2 => .ok (mkMjcf b fMotor fHorn fJ1 fJ2)

/-- The pure core of `converter.main` (`converter.py:43-197`): build the
tree data, then serialize. The output file is written only after the whole
document string is produced (`converter.py:196-197`), so an error means no
output. -/
def convert (a : Assembly) (ms : List MeshEntry) : Except ConvError Mjcf :=
  match buildTree a with
  | .error e => .error e
  | .ok b => serialize ms b

/-- The error of a pipeline result, if any. -/
def errOf : Except ConvError α → Option ConvError
  | .error e => some e
  | .ok _ => none

/-- All body elements of a serialized tree, depth-first, parents first. -/
def XBody.allBodies (b : XBody) : List XBody :=
  b :: (b.children.attach.map (fun c => XBody.allBodies c.1)).flatten
termination_by b
decreasing_by
  obtain ⟨c, hc⟩ := c
  cases b with
  | mk n p ip qr gm gq j cs =>
    have h1 := List.sizeOf_lt_of_mem hc
    simp only [XBody.mk.sizeOf_spec]
    simp only at h1
    omega

/-- All joint elements of a serialized tree, in emission order. -/
def XBody.jointsOf (b : XBody) : List XJoint :=
  b.allBodies.filterMap (fun x => x.joint)

/-- All position-attribute strings of a serialized document: the ground
geom and light positions and, per body element, the body `pos` attribute
and the inertial `pos` attribute. -/
def Mjcf.posFields (m : Mjcf) : List String :=
  m.groundPosStr :: m.lightPosStr ::
    (m.root.allBodies.map (fun b => b.posStr)
      ++ m.root.allBodies.map (fun b => b.inertialPosStr))

/-- Fixed six-decimal formatting over the reals, for the quaternion
attribute fields (same rendering as `fmt6`). -/
noncomputable def fmt6R (x : ℝ) : String := intToFixed6 ⌊x * 1000000 + 1 / 2⌋

/-- Model of `fmt_quat` (`converter.py:123-124`). -/
noncomputable def fmt_quat (q : Fin 4 → ℝ) : String :=
  fmt6R (q 0) ++ " " ++ fmt6R (q 1) ++ " " ++ fmt6R (q 2) ++ " " ++ fmt6R (q 3)

/-- The body `quat` attribute string of a body element, when present. -/
noncomputable def XBody.quatAttr (b : XBody) : Option String :=
  b.quatRot.map (fun m => fmt_quat (quatMujoco m))

/-- The geom `quat` attribute string of a body element, when present. -/
noncomputable def XBody.geomQuatAttr (b : XBody) : Option String :=
  b.geomQuatRot.map (fun m => fmt_quat (quatMujoco m))

/-- A feature record as read by `analyze_for_mujoco`
(`explore_assembly.py:383-401`): name, feature type, suppression flag and
the parameter list (parameter id, value). -/
structure AsmFeature where
  name : String
  featureType : String
  suppressed : Bool
  parameters : List (String × String)
deriving DecidableEq

/-- The features `analyze_for_mujoco` classifies: feature type `"mate"`
and not suppressed (`explore_assembly.py:383-391`). -/
def mateRecords (feats : List AsmFeature) : List AsmFeature :=
  feats.filter (fun f => f.featureType == "mate" && !f.suppressed)

/-- The parameter scan at `explore_assembly.py:393-401`: the last
`mateType` parameter value (default `"UNKNOWN"`), and the parameters whose
lowercased id contains `"limit"`, in order. -/
def mateParams (f : AsmFeature) : String × List (String × String) :=
  f.parameters.foldl
    (fun acc p =>
      if p.1 == "mateType" then (p.2, acc.2)
      else if nameHas "limit" p.1 then (acc.1, acc.2 ++ [p])
      else acc)
    ("UNKNOWN", [])

/-- The closed `mate_mapping` dictionary (`explore_assembly.py:373-381`):
`some none` is an entry whose MuJoCo type is Python `None`; an absent key
gives `none`. -/
def mateMapping (t : String) : Option (Option String) :=
  if t = "FASTENED" then some none
  else if t = "REVOLUTE" then some (some "hinge")
  else if t = "SLIDER" then some (some "slide")
  else if t = "CYLINDRICAL" then some (some "hinge+slide")
  else if t = "BALL" then some (some "ball")
  else if t = "PLANAR" then some (some "free (constrained)")
  else if t = "PARALLEL" then some none
  else none

/-- `mate_mapping.get(mate_type, {'mujoco': 'unknown', ...})['mujoco']`
(`explore_assembly.py:403`). -/
def mujocoOf (t : String) : Option String :=
  match mateMapping t with
  | some v => v
  | none => some "unknown"

/-- A `joint_info` record (`explore_assembly.py:405-412`), restricted to
the fields the claims are about. -/
structure JointInfo where
  name : String
  onshapeType : String
  mujocoType : Option String
  limits : List (String × String)
deriving DecidableEq

/-- The `joint_info` built for one mate (`explore_assembly.py:405-412`). -/
def jointInfoOf (f : AsmFeature) : JointInfo :=
  { name := f.name, onshapeType := (mateParams f).1,
    mujocoType := mujocoOf (mateParams f).1, limits := (mateParams f).2 }

/-- The diagnostic appended for an unknown mate type
(`explore_assembly.py:415-416`). -/
def issueMsg (f : AsmFeature) : String :=
  "Unknown mate type: " ++ (mateParams f).1 ++ " in " ++ f.name

/-- The mates-to-joints result of `analyze_for_mujoco`
(`explore_assembly.py:371-416`): the `joints` list and the
`potential_issues` diagnostics list.  The bodies/summary bookkeeping of
the function is independent of the mate classification and is not
modelled.  The source accumulates both lists with appends inside one loop
over the features; the map/filterMap form below produces the same lists in
the same order. -/
structure MAnalysis where
  joints : List JointInfo
  issues : List String

/-- The mate-classification part of `analyze_for_mujoco`
(`explore_assembly.py:371-416`).  It is a total function: an unrecognized
type tag never aborts it. -/
def analyze_for_mujoco (feats : List AsmFeature) : MAnalysis :=
  { joints := (mateRecords feats).map jointInfoOf,
    issues := (mateRecords feats).filterMap (fun f =>
      if mujocoOf (mateParams f).1 == some "unknown" then some (issueMsg f)
      else none) }

/-- A transform with identity rotation block and the given translation. -/
def idQT (tx ty tz : ℚ) : Transform :=
  ![1, 0, 0, tx, 0, 1, 0, ty, 0, 0, 1, tz, 0, 0, 0, 1]

/-- Synthetic 4-occurrence assembly of spec §8: root (motor) fixed at the
world origin, mover (horn) at world (0.1, 0, 0), one static child of the
mover (joint #1) and one static child of the root (joint #2), with one
combined rotation+translation (`CYLINDRICAL`) mate between mover and root
whose connector axis is (0, 1, 0). -/
def SynAsm : Assembly :=
  { instances :=
      [⟨"m1", "Motor"⟩, ⟨"h1", "Horn"⟩, ⟨"ja", "Joint #1"⟩, ⟨"jb", "Joint #2"⟩],
    occurrences :=
      [⟨"m1", idQT 0 0 0, true, false⟩,
       ⟨"jb", idQT 0 (mkRat 1 100) 0, false, false⟩,
       ⟨"h1", idQT (mkRat 1 10) 0 0, false, false⟩,
       ⟨"ja", idQT (mkRat 1 10) 0 (mkRat 3 100), false, false⟩],
    features :=
      [⟨"CYLINDRICAL",
        [⟨"h1", (0, 1, 0), (mkRat 1 10, 0, 0)⟩, ⟨"m1", (0, 1, 0), (0, 0, 0)⟩],
        [("limitAxialZMin", "-45 deg"), ("limitAxialZMax", "45 deg")]⟩] }

/-- Mesh-export manifest for the synthetic assembly. -/
def SynMeshes : List MeshEntry :=
  [⟨"m1", "Motor_m.stl"⟩, ⟨"h1", "Horn_h.stl"⟩,
   ⟨"ja", "Joint_1_a.stl"⟩, ⟨"jb", "Joint_2_b.stl"⟩]

example : ∃ b, buildTree SynAsm = Except.ok b := ⟨_, rfl⟩
example : (errOf (convert SynAsm SynMeshes)).isNone = true := by rfl

/-- The identity rotation block. -/
def idM : Mat3 := ⟨1, 0, 0, 0, 1, 0, 0, 0, 1⟩

/-- The build result of the synthetic assembly. -/
def SynBuilt : Built :=
  { motorId := "m1", hornId := "h1", joint1Id := "ja", joint2Id := "jb",
    motorPos := (0, 0, 0), hornPos := (mkRat 1 10, 0, 0),
    j1Pos := (mkRat 1 10, 0, mkRat 3 100), j2Pos := (0, mkRat 1 100, 0),
    motorRot := idM, hornRot := idM, j1Rot := idM, j2Rot := idM,
    hornRel := sub3 (mkRat 1 10, 0, 0) (0, 0, 0),
    j2Rel := sub3 (0, mkRat 1 100, 0) (0, 0, 0),
    j1Rel := sub3 (mkRat 1 10, 0, mkRat 3 100) (mkRat 1 10, 0, 0) }

example : buildTree SynAsm = Except.ok SynBuilt := rfl

/-- The serialized document of the synthetic assembly. -/
def SynOut : Mjcf :=
  mkMjcf SynBuilt "Motor_m.stl" "Horn_h.stl" "Joint_1_a.stl" "Joint_2_b.stl"

example : convert SynAsm SynMeshes = Except.ok SynOut := rfl


/-! ## Supporting lemmas -/

theorem sub3_self (v : Vec3) : sub3 v v = (0, 0, 0) := by
  simp [sub3]

theorem edges_eq (k : KinBody) :
    k.edges = k.children.map (fun c => (k, c))
      ++ (k.children.map KinBody.edges).flatten := by
  rw [KinBody.edges]
  congr 1
  congr 1
  exact List.attach_map_coe _ _

theorem allBodies_eq (b : XBody) :
    b.allBodies = b :: (b.children.map XBody.allBodies).flatten := by
  rw [XBody.allBodies]
  congr 1
  congr 1
  exact List.attach_map_coe _ _

/-- Fields of a successfully built tree: the relative positions are the
differences of the world positions, as computed at `converter.py:127-130`. -/
theorem buildTree_ok_rel {a : Assembly} {b : Built}
    (h : buildTree a = Except.ok b) :
    b.hornRel = sub3 b.hornPos b.motorPos ∧
      b.j2Rel = sub3 b.j2Pos b.motorPos ∧
      b.j1Rel = sub3 b.j1Pos b.hornPos := by
  unfold buildTree at h
  repeat' split at h
  all_goals cases h
  simp

/-- A successful conversion is the template document over the built data
and four resolved mesh filenames. -/
theorem convert_ok {a : Assembly} {ms : List MeshEntry} {out : Mjcf}
    (h : convert a ms = Except.ok out) :
    ∃ b fMotor fHorn fJ1 fJ2, buildTree a = Except.ok b ∧
      out = mkMjcf b fMotor fHorn fJ1 fJ2 := by
  unfold convert serialize at h
  repeat' split at h
  all_goals cases h
  exact ⟨_, _, _, _, _, by assumption, rfl⟩

/-! ## C1 -/

/-- C1: for every body except the root in the built kinematic tree, the
local position equals the componentwise difference of world positions,
`world_position(child) - world_position(parent)`; consequently a parent
and child with identical world positions give the zero local offset,
whatever either rotation block is (no orientation hypothesis appears). -/
theorem C1_localPos_is_worldDiff (a : Assembly) (b : Built)
    (h : buildTree a = Except.ok b) :
    (∀ pc ∈ (Built.tree b).edges,
        pc.2.localPos = sub3 pc.2.worldPos pc.1.worldPos) ∧
    (∀ pc ∈ (Built.tree b).edges,
        pc.1.worldPos = pc.2.worldPos → pc.2.localPos = (0, 0, 0)) := by
  obtain ⟨h1, h2, h3⟩ := buildTree_ok_rel h
  have hedges : ∀ pc ∈ (Built.tree b).edges,
      pc.2.localPos = sub3 pc.2.worldPos pc.1.worldPos := by
    intro pc hpc
    simp only [Built.tree, edges_eq, List.map_cons, List.map_nil,
      List.flatten, List.append_nil, List.nil_append, List.cons_append,
      List.mem_cons, List.mem_singleton, List.not_mem_nil] at hpc
    rcases hpc with h | h | h | h
    · subst h; exact h2
    · subst h; exact h1
    · subst h; exact h3
    · exact h.elim
  refine ⟨hedges, fun pc hpc heq => ?_⟩
  rw [hedges pc hpc, ← heq, sub3_self]

/-- Witness for C1 at the synthetic assembly. -/
theorem C1_witness :
    ∃ b, buildTree SynAsm = Except.ok b ∧
      (∀ pc ∈ (Built.tree b).edges,
        pc.2.localPos = sub3 pc.2.worldPos pc.1.worldPos) :=
  ⟨_, rfl, (C1_localPos_is_worldDiff SynAsm _ rfl).1⟩

/-! ## C4 -/

/-- C4 (amended): for every 16-value transform, the returned quaternion is
in (w, x, y, z) component order (slot 0 carries the Shepperd scalar part)
and is a strict unit quaternion; it is NOT canonicalized to a non-negative
scalar part (see the counterexample). -/
theorem C4_unit_quaternion_wxyz (t : Transform) :
    ((transform_to_pos_quat t).2 0) ^ 2 + ((transform_to_pos_quat t).2 1) ^ 2
      + ((transform_to_pos_quat t).2 2) ^ 2 + ((transform_to_pos_quat t).2 3) ^ 2
      = 1 ∧
    ((transform_to_pos_quat t).2 0)
        * Real.sqrt ((rqNormSq (shepperd (rotOf t)) : ℝ))
      = ((shepperd (rotOf t)).qw : ℝ) ∧
    (transform_to_pos_quat t).1 = posOf t := by
  have hpos := sqrt_rqNormSq_pos (rotOf t)
  have hne : Real.sqrt ((rqNormSq (shepperd (rotOf t)) : ℝ)) ≠ 0 := ne_of_gt hpos
  have hS1 : (1 : ℝ) ≤ (rqNormSq (shepperd (rotOf t)) : ℝ) := by
    exact_mod_cast one_le_rqNormSq_shepperd (rotOf t)
  have hSpos : (0 : ℝ) < (rqNormSq (shepperd (rotOf t)) : ℝ) :=
    lt_of_lt_of_le one_pos hS1
  refine ⟨?_, ?_, rfl⟩
  · simp only [transform_to_pos_quat, quatMujoco, Matrix.cons_val_zero,
      Matrix.cons_val_one, Matrix.head_cons, Matrix.cons_val_two,
      Matrix.tail_cons, Matrix.cons_val_three]
    rw [div_pow, div_pow, div_pow, div_pow]
    rw [div_add_div_same, div_add_div_same, div_add_div_same]
    rw [Real.sq_sqrt (le_of_lt hSpos)]
    rw [div_eq_one_iff_eq (ne_of_gt hSpos)]
    have : (rqNormSq (shepperd (rotOf t)) : ℝ)
        = ((shepperd (rotOf t)).qx : ℝ) ^ 2 + ((shepperd (rotOf t)).qy : ℝ) ^ 2
          + ((shepperd (rotOf t)).qz : ℝ) ^ 2 + ((shepperd (rotOf t)).qw : ℝ) ^ 2 := by
      rw [rqNormSq]
      push_cast
      ring
    rw [this]
    ring
  · simp only [transform_to_pos_quat, quatMujoco, Matrix.cons_val_zero]
    rw [div_mul_cancel₀ _ hne]

/-- Counterexample to C4 as stated: the rotation by an angle of
`-2*atan(2)` about the x axis (rotation block with columns (1,0,0),
(0,-3/5,-4/5), (0,4/5,-3/5), an exactly orthonormal matrix) yields a
quaternion with strictly negative scalar part, so the output is not the
canonical double-cover representative. -/
def TC4 : Transform :=
  ![1, 0, 0, 0, 0, mkRat (-3) 5, mkRat (-4) 5, 0, 0, mkRat 4 5, mkRat (-3) 5, 0,
    0, 0, 0, 1]

theorem C4_counterexample : (transform_to_pos_quat TC4).2 0 < 0 := by
  have hrot : rotOf TC4
      = ⟨1, 0, 0, 0, mkRat (-3) 5, mkRat 4 5, 0, mkRat (-4) 5, mkRat (-3) 5⟩ := rfl
  have hq : shepperd (rotOf TC4) = ⟨16 / 5, 0, 0, -(8 / 5)⟩ := by
    rw [hrot]
    unfold shepperd tr3
    rw [if_pos (by norm_num [Rat.mkRat_eq_div])]
    simp only [RQuat.mk.injEq]
    norm_num [Rat.mkRat_eq_div]
  have hpos := sqrt_rqNormSq_pos (rotOf TC4)
  simp only [transform_to_pos_quat, quatMujoco, Matrix.cons_val_zero]
  apply div_neg_of_neg_of_pos
  · rw [hq]
    norm_num
  · exact hpos

theorem allBodies_motorBody (b : Built) :
    (motorBody b).allBodies = [motorBody b, j2Body b, hornBody b, j1Body b] := by
  rw [allBodies_eq]
  rw [show (motorBody b).children = [j2Body b, hornBody b] from rfl]
  rw [List.map_cons, List.map_cons, List.map_nil]
  rw [allBodies_eq, allBodies_eq]
  rw [show (j2Body b).children = [] from rfl,
    show (hornBody b).children = [j1Body b] from rfl]
  simp only [List.map_cons, List.map_nil]
  rw [allBodies_eq]
  rw [show (j1Body b).children = [] from rfl]
  simp

theorem jointsOf_motorBody (b : Built) : (motorBody b).jointsOf = [servoJoint] := by
  rw [XBody.jointsOf, allBodies_motorBody]
  rfl

/-! ## C2 -/

/-- C2 (amended): the emitted joint axis is the hard-coded constant
(0, -1, 0) of the template (`converter.py:176`), for every input on which
the converter succeeds; it is not a function of any mate connector
axis. -/
theorem C2_axis_is_constant (a : Assembly) (ms : List MeshEntry) (out : Mjcf)
    (h : convert a ms = Except.ok out) :
    ∀ bd ∈ out.root.allBodies, ∀ j, bd.joint = some j → j.axis = (0, -1, 0) := by
  obtain ⟨b, f1, f2, f3, f4, hb, hout⟩ := convert_ok h
  subst hout
  intro bd hbd j hj
  rw [show (mkMjcf b f1 f2 f3 f4).root = motorBody b from rfl,
    allBodies_motorBody] at hbd
  simp only [List.mem_cons, List.not_mem_nil, or_false] at hbd
  rcases hbd with h1 | h1 | h1 | h1 <;> subst h1
  · exact absurd hj (by simp [motorBody])
  · exact absurd hj (by simp [j2Body])
  · have hsj : servoJoint = j := by simpa [hornBody] using hj
    rw [← hsj]
    rfl
  · exact absurd hj (by simp [j1Body])

/-- Witness for the amended C2 at the synthetic assembly. -/
theorem C2_witness :
    ∃ out, convert SynAsm SynMeshes = Except.ok out ∧
      ∀ bd ∈ out.root.allBodies, ∀ j, bd.joint = some j → j.axis = (0, -1, 0) :=
  ⟨_, rfl, C2_axis_is_constant SynAsm SynMeshes _ rfl⟩

/-- Counterexample to C2 as stated: the synthetic assembly's single-rotation
producing (cylindrical) mate has connector axis (0, 1, 0) on both
participants, yet the emitted joint's axis is (0, -1, 0) — a sign flip,
whose y component differs from the connector's by 2, far above the 1e-9
drift bound. -/
theorem C2_counterexample :
    convert SynAsm SynMeshes = Except.ok SynOut ∧
    SynOut.root.jointsOf = [servoJoint] ∧
    servoJoint.axis = (0, -1, 0) ∧
    SynAsm.features.map
        (fun f => (f.mateType, f.matedEntities.map (fun e => e.zAxis)))
      = [("CYLINDRICAL", [(0, 1, 0), (0, 1, 0)])] ∧
    servoJoint.axis ≠ (0, 1, 0) ∧ |(-1 : ℚ) - 1| > 1 / 1000000000 := by
  refine ⟨rfl, ?_, rfl, rfl, ?_, by norm_num⟩
  · rw [show SynOut.root = motorBody SynBuilt from rfl, jointsOf_motorBody]
  · intro hcon
    rw [show servoJoint.axis = (0, -1, 0) from rfl, Prod.mk.injEq,
      Prod.mk.injEq] at hcon
    have h1 : (-1 : ℚ) = 1 := hcon.2.1
    norm_num at h1

/-! ## C3 -/

/-- C3: for every input on which the converter succeeds, the serialized
output contains exactly one joint element and exactly one actuator
element; the actuator references the joint by its name; every actuator
refers to the joint of some body (so a body with no joint induces no
actuator); and this holds regardless of how many mates the input
classifies (the template emits a single hard-coded joint/actuator
pair, `converter.py:176,190-192`). -/
theorem C3_one_joint_one_actuator (a : Assembly) (ms : List MeshEntry)
    (out : Mjcf) (h : convert a ms = Except.ok out) :
    out.root.jointsOf.length = 1 ∧ out.actuators.length = 1 ∧
    (∀ act ∈ out.actuators, ∀ j ∈ out.root.jointsOf, act.joint = j.name) ∧
    (∀ act ∈ out.actuators, ∃ bd ∈ out.root.allBodies, ∃ j,
        bd.joint = some j ∧ act.joint = j.name) := by
  obtain ⟨b, f1, f2, f3, f4, hb, hout⟩ := convert_ok h
  subst hout
  have hjoints : (mkMjcf b f1 f2 f3 f4).root.jointsOf = [servoJoint] := by
    rw [show (mkMjcf b f1 f2 f3 f4).root = motorBody b from rfl,
      jointsOf_motorBody]
  refine ⟨by rw [hjoints]; rfl, rfl, ?_, ?_⟩
  · intro act hact j hj
    rw [hjoints] at hj
    simp only [List.mem_singleton] at hj
    subst hj
    simp only [mkMjcf, List.mem_singleton] at hact
    subst hact
    rfl
  · intro act hact
    simp only [mkMjcf, List.mem_singleton] at hact
    subst hact
    refine ⟨hornBody b, ?_, servoJoint, rfl, rfl⟩
    rw [show (mkMjcf b f1 f2 f3 f4).root = motorBody b from rfl,
      allBodies_motorBody]
    simp

/-- An input with two classified (cylindrical) mates: the second mate is
between the two static parts. -/
def SynAsmTwoMates : Assembly :=
  { SynAsm with
    features := SynAsm.features ++
      [⟨"CYLINDRICAL", [⟨"ja", (0, 0, 1), (0, 0, 0)⟩, ⟨"jb", (0, 0, 1), (0, 0, 0)⟩],
        []⟩] }

/-- Witness for C3, at an input carrying two classified mates: still
exactly one joint and one actuator element. -/
theorem C3_witness :
    ∃ out, convert SynAsmTwoMates SynMeshes = Except.ok out ∧
      out.root.jointsOf.length = 1 ∧ out.actuators.length = 1 :=
  ⟨_, rfl, (C3_one_joint_one_actuator SynAsmTwoMates SynMeshes _ rfl).1,
    (C3_one_joint_one_actuator SynAsmTwoMates SynMeshes _ rfl).2.1⟩

/-! ## C5 -/

/-- Whether a pipeline result is an error. -/
def isErrB (e : Except ConvError α) : Bool := (errOf e).isSome

/-- Root selection or its two dictionary accesses fail
(`converter.py:52-69`). -/
def rootFailB (a : Assembly) : Bool :=
  match rootKey a with
  | none => true
  | some r => (instFind a r).isNone || (occFind a r).isNone

/-- Some occurrence key has no matching instance (`converter.py:73-76`). -/
def occsFailB (a : Assembly) : Bool :=
  a.occurrences.any (fun o => (instFind a o.path0).isNone)

/-- A cylindrical mate lacks two mated entities or a participant instance
(`converter.py:79-94`). -/
def cylFail1B (a : Assembly) (f : CFeature) : Bool :=
  if f.mateType = "CYLINDRICAL" then
    match f.matedEntities.get? 0, f.matedEntities.get? 1 with
    | some e0, some e1 =>
      (instFind a e0.matedOccurrence0).isNone
        || (instFind a e1.matedOccurrence0).isNone
    | _, _ => true
  else false

/-- Some cylindrical mate fails its accesses. -/
def cylFailB (a : Assembly) : Bool := a.features.any (cylFail1B a)

/-- An optional body key does not resolve to an occurrence
(`converter.py:115-118`). -/
def occKeyFailB (a : Assembly) (k : Option String) : Bool :=
  match k with
  | none => true
  | some s => (occFind a s).isNone

/-- One of the four name-designated bodies does not resolve to an
occurrence. -/
def scanFailB (a : Assembly) : Bool :=
  occKeyFailB a (nameScan a).motor || occKeyFailB a (nameScan a).horn
    || occKeyFailB a (nameScan a).joint1 || occKeyFailB a (nameScan a).joint2

/-- The complete failure condition of the tree-building phase. -/
def buildFailB (a : Assembly) : Bool :=
  rootFailB a || occsFailB a || cylFailB a || scanFailB a

theorem isErrB_error (e : ConvError) :
    isErrB (α := α) (Except.error e) = true := rfl

theorem isErrB_ok (x : α) : isErrB (Except.ok x) = false := rfl

theorem checkListE_isErr (f : α → Except ConvError Unit) (l : List α) :
    isErrB (checkListE f l) = l.any (fun x => isErrB (f x)) := by
  induction l with
  | nil => rfl
  | cons x xs ih =>
    simp only [checkListE, List.any_cons]
    cases hfx : f x with
    | error e => simp [hfx, isErrB_error]
    | ok u => simp [hfx, isErrB_ok, ih]

theorem getInstE_isErr (a : Assembly) (k : Option String) :
    isErrB (getInstE a k) = (k.bind (instFind a)).isNone := by
  unfold getInstE
  cases hk : k.bind (instFind a) <;> simp [isErrB, errOf]

theorem getOccKE_isErr (a : Assembly) (k : Option String) :
    isErrB (getOccKE a k) = occKeyFailB a k := by
  unfold getOccKE occKeyFailB
  cases k with
  | none => rfl
  | some s => cases ho : occFind a s <;> simp [ho, isErrB, errOf]

theorem isErrB_map (e : Except ConvError α) (g : α → β) :
    isErrB (e.map g) = isErrB e := by
  cases e <;> rfl

theorem occInstCheck_isErr (a : Assembly) :
    isErrB (occInstCheck a) = occsFailB a := by
  unfold occInstCheck occsFailB
  rw [checkListE_isErr]
  congr 1
  funext o
  rw [isErrB_map, getInstE_isErr]
  rfl

theorem cylCheck_isErr (a : Assembly) (f : CFeature) :
    isErrB (cylCheck a f) = cylFail1B a f := by
  unfold cylCheck cylFail1B
  split_ifs with hmt
  · cases h0 : f.matedEntities.get? 0 with
    | none => rfl
    | some e0 =>
      cases h1 : f.matedEntities.get? 1 with
      | none => rfl
      | some e1 =>
        cases hi0 : instFind a e0.matedOccurrence0 with
        | none => simp [getInstE, Option.bind, hi0, Except.bind, isErrB, errOf]
        | some i0 =>
          cases hi1 : instFind a e1.matedOccurrence0 with
          | none =>
            simp [getInstE, Option.bind, hi0, hi1, Except.bind, Except.map,
              isErrB, errOf]
          | some i1 =>
            simp [getInstE, Option.bind, hi0, hi1, Except.bind, Except.map,
              isErrB, errOf]
  · rfl

theorem cylList_isErr (a : Assembly) :
    isErrB (checkListE (cylCheck a) a.features) = cylFailB a := by
  unfold cylFailB
  rw [checkListE_isErr]
  congr 1
  funext f
  rw [cylCheck_isErr]

theorem rootFailB_eq (a : Assembly) :
    rootFailB a
      = (isErrB (getInstE a (rootKey a)) || isErrB (getOccKE a (rootKey a))) := by
  unfold rootFailB
  rw [getInstE_isErr, getOccKE_isErr]
  cases rootKey a with
  | none => rfl
  | some r => simp [Option.bind, occKeyFailB]

/-- The tree-building phase fails exactly on the failure condition: the
listed dictionary/list accesses are its only failure sources. -/
theorem buildTree_isErr (a : Assembly) :
    isErrB (buildTree a) = buildFailB a := by
  unfold buildFailB scanFailB
  rw [rootFailB_eq, ← occInstCheck_isErr, ← cylList_isErr,
    ← getOccKE_isErr a (nameScan a).motor, ← getOccKE_isErr a (nameScan a).horn,
    ← getOccKE_isErr a (nameScan a).joint1,
    ← getOccKE_isErr a (nameScan a).joint2]
  unfold buildTree
  cases h1 : getInstE a (rootKey a) with
  | error e1 => simp [h1, isErrB, errOf]
  | ok i1 =>
    cases h2 : getOccKE a (rootKey a) with
    | error e2 => simp [h1, h2, isErrB, errOf]
    | ok o2 =>
      cases h3 : occInstCheck a with
      | error e3 => simp [h1, h2, h3, isErrB, errOf]
      | ok u3 =>
        cases h4 : checkListE (cylCheck a) a.features with
        | error e4 => simp [h1, h2, h3, h4, isErrB, errOf]
        | ok u4 =>
          cases h5 : getOccKE a (nameScan a).motor with
          | error e5 => simp [h1, h2, h3, h4, h5, isErrB, errOf]
          | ok mo =>
            cases h6 : getOccKE a (nameScan a).horn with
            | error e6 => simp [h1, h2, h3, h4, h5, h6, isErrB, errOf]
            | ok ho =>
              cases h7 : getOccKE a (nameScan a).joint1 with
              | error e7 => simp [h1, h2, h3, h4, h5, h6, h7, isErrB, errOf]
              | ok j1 =>
                cases h8 : getOccKE a (nameScan a).joint2 with
                | error e8 =>
                  simp [h1, h2, h3, h4, h5, h6, h7, h8, isErrB, errOf]
                | ok j2 =>
                  simp [h1, h2, h3, h4, h5, h6, h7, h8, isErrB, errOf]

/-- C5 (amended): the root is the fixed occurrence's key (fallback: the
first instance whose lowercased name contains "motor" when no fixed
occurrence resolves), and the tree-building phase fails exactly when one
of its lookups fails: root selection or the root's instance/occurrence
lookup, an occurrence without matching instance, a cylindrical mate
lacking two entities or a participant instance, or one of the four
name-designated bodies (motor, horn, joint #1, joint #2) not resolving to
an occurrence.  In the Python source each such failure is an uncaught
`KeyError`/`IndexError` raised before any output is written. -/
theorem C5_root_selection_and_failure (a : Assembly) :
    (∀ o, a.occurrences.find? (fun x => x.fixed) = some o → o.path0 ≠ "" →
        rootKey a = some o.path0) ∧
    (a.occurrences.find? (fun x => x.fixed) = none →
        rootKey a
          = (a.instances.find? (fun i => nameHas "motor" i.name)).map
              (fun i => i.id)) ∧
    isErrB (buildTree a) = buildFailB a := by
  refine ⟨?_, ?_, buildTree_isErr a⟩
  · intro o ho hne
    unfold rootKey
    rw [ho]
    simp [hne]
  · intro h
    unfold rootKey
    rw [h]
    cases (a.instances.find? (fun i => nameHas "motor" i.name)).map
        (fun i => i.id) <;> simp

/-- Witness for C5 at the synthetic assembly: the fixed occurrence is
selected as root, and the failure equivalence instantiates. -/
theorem C5_witness :
    rootKey SynAsm = some "m1"
      ∧ isErrB (buildTree SynAsm) = buildFailB SynAsm :=
  ⟨(C5_root_selection_and_failure SynAsm).1 ⟨"m1", idQT 0 0 0, true, false⟩
      rfl (by decide),
    (C5_root_selection_and_failure SynAsm).2.2⟩

/-- The claim's failure condition for joint participants: some participant
of a cylindrical mate cannot be found by key (instance or occurrence). -/
def cylParticipantMissingB (a : Assembly) : Bool :=
  a.features.any (fun f => f.mateType == "CYLINDRICAL" &&
    f.matedEntities.any (fun e =>
      (instFind a e.matedOccurrence0).isNone
        || (occFind a e.matedOccurrence0).isNone))

/-- The synthetic assembly with the `Joint #1` instance and occurrence
removed: root and mate participants all resolve, yet the build fails. -/
def BadAsm : Assembly :=
  { instances := [⟨"m1", "Motor"⟩, ⟨"h1", "Horn"⟩, ⟨"jb", "Joint #2"⟩],
    occurrences :=
      [⟨"m1", idQT 0 0 0, true, false⟩,
       ⟨"jb", idQT 0 (mkRat 1 100) 0, false, false⟩,
       ⟨"h1", idQT (mkRat 1 10) 0 0, false, false⟩],
    features :=
      [⟨"CYLINDRICAL",
        [⟨"h1", (0, 1, 0), (0, 0, 0)⟩, ⟨"m1", (0, 1, 0), (0, 0, 0)⟩], []⟩] }

/-- Counterexample to C5 as stated: on `BadAsm` the build fails (with a
missing-occurrence error) although a fixed occurrence resolves the root
and every joint participant is found by key — the failure comes from the
name-designated static body `joint #1`, a case outside the claim's
"exactly when" condition. -/
theorem C5_counterexample :
    isErrB (buildTree BadAsm) = true ∧ rootKey BadAsm = some "m1" ∧
      cylParticipantMissingB BadAsm = false ∧
      (nameScan BadAsm).joint1 = none :=
  ⟨rfl, rfl, by decide, rfl⟩

/-! ## C6 -/

/-- Some of the four mesh-manifest lookups of the template fails. -/
def meshMissB (ms : List MeshEntry) (b : Built) : Bool :=
  (meshFind ms b.motorId).isNone || (meshFind ms b.hornId).isNone
    || (meshFind ms b.joint1Id).isNone || (meshFind ms b.joint2Id).isNone

/-- C6 (amended): a body whose instance id lacks a manifest entry makes
the whole conversion fail with `MissingGeometry` (an uncaught `KeyError`
at `converter.py:151-154` in the source): the error is fatal, no body is
emitted and no output is produced — not a recorded non-fatal
diagnostic. -/
theorem C6_missing_geometry_fatal (a : Assembly) (ms : List MeshEntry)
    (b : Built) (h : buildTree a = Except.ok b) :
    (isErrB (convert a ms) = meshMissB ms b) ∧
    (meshMissB ms b = true →
      ∃ k, errOf (convert a ms) = some (ConvError.MissingGeometry k) ∧
        meshFind ms k = none) := by
  unfold convert
  rw [h]
  unfold serialize meshMissB
  cases hm1 : meshFind ms b.motorId with
  | none =>
    exact ⟨by simp [hm1, isErrB, errOf],
      fun _ => ⟨b.motorId, by simp [hm1, errOf], hm1⟩⟩
  | some f1 =>
    cases hm2 : meshFind ms b.hornId with
    | none =>
      exact ⟨by simp [hm1, hm2, isErrB, errOf],
        fun _ => ⟨b.hornId, by simp [hm1, hm2, errOf], hm2⟩⟩
    | some f2 =>
      cases hm3 : meshFind ms b.joint1Id with
      | none =>
        exact ⟨by simp [hm1, hm2, hm3, isErrB, errOf],
          fun _ => ⟨b.joint1Id, by simp [hm1, hm2, hm3, errOf], hm3⟩⟩
      | some f3 =>
        cases hm4 : meshFind ms b.joint2Id with
        | none =>
          exact ⟨by simp [hm1, hm2, hm3, hm4, isErrB, errOf],
            fun _ => ⟨b.joint2Id, by simp [hm1, hm2, hm3, hm4, errOf], hm4⟩⟩
        | some f4 =>
          refine ⟨by simp [hm1, hm2, hm3, hm4, isErrB, errOf], fun hcon => ?_⟩
          simp at hcon

/-- The synthetic manifest with the motor entry removed. -/
def BadMeshes : List MeshEntry :=
  [⟨"h1", "Horn_h.stl"⟩, ⟨"ja", "Joint_1_a.stl"⟩, ⟨"jb", "Joint_2_b.stl"⟩]

/-- Witness for C6: the synthetic assembly against a manifest missing the
motor entry fails with `MissingGeometry`. -/
theorem C6_witness :
    ∃ k, errOf (convert SynAsm BadMeshes) = some (ConvError.MissingGeometry k) ∧
      meshFind BadMeshes k = none :=
  (C6_missing_geometry_fatal SynAsm BadMeshes SynBuilt rfl).2 rfl

/-- Counterexample to C6 as stated: with the motor manifest entry missing,
the run does NOT complete and no body is emitted — the conversion aborts
with a fatal `MissingGeometry` error instead of recording a non-fatal
diagnostic. -/
theorem C6_counterexample :
    errOf (convert SynAsm BadMeshes) = some (ConvError.MissingGeometry "m1") ∧
      (meshFind BadMeshes "m1").isNone = true ∧
      instFind SynAsm "m1" = some ⟨"m1", "Motor"⟩ :=
  ⟨rfl, rfl, rfl⟩

/-! ## C7 -/

/-- Whether a pipeline result succeeds, with its value. -/
theorem isErrB_false_iff (e : Except ConvError α) :
    isErrB e = false ↔ ∃ x, e = Except.ok x := by
  cases e <;> simp [isErrB, errOf]

/-- The serializer fails exactly when some manifest lookup fails. -/
theorem serialize_isErr (ms : List MeshEntry) (b : Built) :
    isErrB (serialize ms b) = meshMissB ms b := by
  unfold serialize meshMissB
  cases hm1 : meshFind ms b.motorId with
  | none => simp [isErrB, errOf]
  | some f1 =>
    cases hm2 : meshFind ms b.hornId with
    | none => simp [isErrB, errOf]
    | some f2 =>
      cases hm3 : meshFind ms b.joint1Id with
      | none => simp [isErrB, errOf]
      | some f3 =>
        cases hm4 : meshFind ms b.joint2Id with
        | none => simp [isErrB, errOf]
        | some f4 => simp [isErrB, errOf]

/-- A successful occurrence lookup resolves exactly the requested key. -/
theorem getOccKE_ok {a : Assembly} {k : Option String} {p : String × POccurrence}
    (h : getOccKE a k = Except.ok p) : k = some p.1 := by
  unfold getOccKE at h
  repeat' split at h
  all_goals cases h
  rfl

/-- The four body ids of a successful build are the name-scan ids. -/
theorem buildTree_ok_ids {a : Assembly} {b : Built}
    (h : buildTree a = Except.ok b) :
    some b.motorId = (nameScan a).motor ∧ some b.hornId = (nameScan a).horn ∧
      some b.joint1Id = (nameScan a).joint1
      ∧ some b.joint2Id = (nameScan a).joint2 := by
  unfold buildTree at h
  repeat' split at h
  all_goals cases h
  refine ⟨(getOccKE_ok (by assumption)).symm, (getOccKE_ok (by assumption)).symm,
    (getOccKE_ok (by assumption)).symm, (getOccKE_ok (by assumption)).symm⟩

/-- Equality of two occurrence records except for the transform. -/
def occShapeB (o p : POccurrence) : Bool :=
  o.path0 == p.path0 && o.fixed == p.fixed && o.hidden == p.hidden

/-- Pairwise `occShapeB` over the occurrence lists. -/
def occsShapeB : List POccurrence → List POccurrence → Bool
  | [], [] => true
  | o :: os, p :: ps => occShapeB o p && occsShapeB os ps
  | _, _ => false

/-- Two assemblies that agree except in the occurrence transforms. -/
def sameExceptTransformsB (a a2 : Assembly) : Bool :=
  a.instances == a2.instances && a.features == a2.features
    && occsShapeB a.occurrences a2.occurrences

theorem occsShapeB_fixedScan {l1 l2 : List POccurrence}
    (h : occsShapeB l1 l2 = true) :
    (l1.find? (fun o => o.fixed)).map (fun o => o.path0)
      = (l2.find? (fun o => o.fixed)).map (fun o => o.path0) := by
  induction l1 generalizing l2 with
  | nil =>
    cases l2 with
    | nil => rfl
    | cons p ps => simp [occsShapeB] at h
  | cons o os ih =>
    cases l2 with
    | nil => simp [occsShapeB] at h
    | cons p ps =>
      simp only [occsShapeB, occShapeB, Bool.and_eq_true, beq_iff_eq] at h
      obtain ⟨⟨⟨hp, hf⟩, hh⟩, hrest⟩ := h
      simp only [List.find?_cons]
      rw [hf]
      cases hpf : p.fixed with
      | false => simpa using ih hrest
      | true => simp [hp]

theorem occsShapeB_any {l1 l2 : List POccurrence} (g : String → Bool)
    (h : occsShapeB l1 l2 = true) :
    l1.any (fun o => g o.path0) = l2.any (fun o => g o.path0) := by
  induction l1 generalizing l2 with
  | nil =>
    cases l2 with
    | nil => rfl
    | cons p ps => simp [occsShapeB] at h
  | cons o os ih =>
    cases l2 with
    | nil => simp [occsShapeB] at h
    | cons p ps =>
      simp only [occsShapeB, occShapeB, Bool.and_eq_true, beq_iff_eq] at h
      obtain ⟨⟨⟨hp, hf⟩, hh⟩, hrest⟩ := h
      simp only [List.any_cons]
      rw [hp, ih hrest]

theorem occsShapeB_findKey {l1 l2 : List POccurrence}
    (h : occsShapeB l1 l2 = true) (k : String) :
    (l1.find? (fun o => o.path0 == k)).isNone
      = (l2.find? (fun o => o.path0 == k)).isNone := by
  induction l1 generalizing l2 with
  | nil =>
    cases l2 with
    | nil => rfl
    | cons p ps => simp [occsShapeB] at h
  | cons o os ih =>
    cases l2 with
    | nil => simp [occsShapeB] at h
    | cons p ps =>
      simp only [occsShapeB, occShapeB, Bool.and_eq_true, beq_iff_eq] at h
      obtain ⟨⟨⟨hp, hf⟩, hh⟩, hrest⟩ := h
      simp only [List.find?_cons]
      rw [hp]
      cases hpk : p.path0 == k with
      | false => simpa using ih hrest
      | true => rfl

/-- C7 (amended): the transform extractor performs no validation and the
pipeline never fails because of transform values: whether the conversion
succeeds or fails is independent of every occurrence transform.  (The
counterexample shows a rotation block with determinant 8 — deviation 7
from 1, far beyond 1e-3 — being accepted, output produced.) -/
theorem C7_transform_independent_errors (a a2 : Assembly)
    (ms : List MeshEntry) (h : sameExceptTransformsB a a2 = true) :
    isErrB (convert a ms) = isErrB (convert a2 ms) := by
  simp only [sameExceptTransformsB, Bool.and_eq_true, beq_iff_eq] at h
  obtain ⟨⟨hI, hF⟩, hO⟩ := h
  have hIF : instFind a = instFind a2 := funext fun k => by unfold instFind; rw [hI]
  have hRoot : rootKey a = rootKey a2 := by
    unfold rootKey
    rw [hI, occsShapeB_fixedScan hO]
  have hScan : nameScan a = nameScan a2 := by unfold nameScan; rw [hI]
  have hOFn : ∀ k, (occFind a k).isNone = (occFind a2 k).isNone := fun k => by
    unfold occFind
    exact occsShapeB_findKey hO k
  have hRF : rootFailB a = rootFailB a2 := by
    unfold rootFailB
    rw [hRoot, hIF]
    cases hr : rootKey a2 with
    | none => rfl
    | some r =>
      dsimp only
      rw [hOFn r]
  have hOcc : occsFailB a = occsFailB a2 := by
    unfold occsFailB
    rw [hIF]
    exact occsShapeB_any (fun k => (instFind a2 k).isNone) hO
  have hCyl : cylFailB a = cylFailB a2 := by
    unfold cylFailB
    rw [hF]
    congr 1
    funext f
    unfold cylFail1B
    rw [hIF]
  have hKey : ∀ k, occKeyFailB a k = occKeyFailB a2 k := fun k => by
    unfold occKeyFailB
    cases k with
    | none => rfl
    | some sk => exact hOFn sk
  have hScanF : scanFailB a = scanFailB a2 := by
    unfold scanFailB
    rw [hScan, hKey ((nameScan a2).motor), hKey ((nameScan a2).horn),
      hKey ((nameScan a2).joint1), hKey ((nameScan a2).joint2)]
  have hBF : buildFailB a = buildFailB a2 := by
    unfold buildFailB
    rw [hRF, hOcc, hCyl, hScanF]
  cases hba : buildTree a with
  | error e =>
    have h1 : buildFailB a = true := by rw [← buildTree_isErr, hba]; rfl
    have h2 : isErrB (buildTree a2) = true := by rw [buildTree_isErr, ← hBF, h1]
    cases hba2 : buildTree a2 with
    | error e2 => unfold convert; rw [hba, hba2]; rfl
    | ok b2 =>
      rw [hba2] at h2
      exact absurd h2 (by simp [isErrB, errOf])
  | ok b =>
    have h1 : buildFailB a = false := by rw [← buildTree_isErr, hba]; rfl
    have h2 : isErrB (buildTree a2) = false := by rw [buildTree_isErr, ← hBF, h1]
    obtain ⟨b2, hba2⟩ := (isErrB_false_iff _).mp h2
    unfold convert
    rw [hba, hba2]
    rw [serialize_isErr ms b, serialize_isErr ms b2]
    obtain ⟨i1, i2, i3, i4⟩ := buildTree_ok_ids hba
    obtain ⟨k1, k2, k3, k4⟩ := buildTree_ok_ids hba2
    rw [hScan] at i1 i2 i3 i4
    have e1 : b.motorId = b2.motorId := Option.some.inj (i1.trans k1.symm)
    have e2 : b.hornId = b2.hornId := Option.some.inj (i2.trans k2.symm)
    have e3 : b.joint1Id = b2.joint1Id := Option.some.inj (i3.trans k3.symm)
    have e4 : b.joint2Id = b2.joint2Id := Option.some.inj (i4.trans k4.symm)
    unfold meshMissB
    rw [e1, e2, e3, e4]

/-- A transform whose rotation block is twice the identity: determinant 8,
columns of length 2 — far from orthonormal. -/
def T2I : Transform := ![2, 0, 0, 0, 0, 2, 0, 0, 0, 0, 2, 0, 0, 0, 0, 1]

/-- The synthetic assembly with the motor occurrence transform replaced by
the non-orthonormal `T2I`. -/
def SynAsm2I : Assembly :=
  { instances := SynAsm.instances,
    occurrences :=
      [⟨"m1", T2I, true, false⟩,
       ⟨"jb", idQT 0 (mkRat 1 100) 0, false, false⟩,
       ⟨"h1", idQT (mkRat 1 10) 0 0, false, false⟩,
       ⟨"ja", idQT (mkRat 1 10) 0 (mkRat 3 100), false, false⟩],
    features := SynAsm.features }

/-- Witness for C7: the synthetic assembly and its `T2I` variant agree on
success. -/
theorem C7_witness :
    isErrB (convert SynAsm SynMeshes) = isErrB (convert SynAsm2I SynMeshes) :=
  C7_transform_independent_errors SynAsm SynAsm2I SynMeshes (by decide)

/-- Counterexample to C7 as stated: the transform `T2I` has a rotation
block whose determinant deviates from 1 by 7 > 1e-3, yet the pipeline
does NOT fail with `InvalidTransform` — it completes and produces
output. -/
theorem C7_counterexample :
    (errOf (convert SynAsm2I SynMeshes)).isNone = true ∧
      |det3 (rotOf T2I) - 1| > 1 / 1000 := by
  refine ⟨rfl, ?_⟩
  rw [show rotOf T2I = ⟨2, 0, 0, 0, 2, 0, 0, 0, 2⟩ from rfl]
  norm_num [det3]

/-! ## C8 -/

theorem checkListE_append (f : α → Except ConvError Unit) (l1 l2 : List α) :
    checkListE f (l1 ++ l2)
      = match checkListE f l1 with
        | .ok _ => checkListE f l2
        | .error e => .error e := by
  induction l1 with
  | nil => rfl
  | cons x xs ih =>
    simp only [List.cons_append, checkListE]
    cases f x with
    | error e => rfl
    | ok u => exact ih

/-- Appending a feature that passes the cylindrical-mate accesses leaves
the build unchanged: the converter reads features only in that loop. -/
theorem buildTree_append_feature (a : Assembly) (g : CFeature)
    (hg : cylCheck a g = Except.ok ()) :
    buildTree { a with features := a.features ++ [g] } = buildTree a := by
  have hc : checkListE (cylCheck { a with features := a.features ++ [g] })
      (({ a with features := a.features ++ [g] } : Assembly).features)
      = checkListE (cylCheck a) a.features := by
    show checkListE (cylCheck { a with features := a.features ++ [g] })
      (a.features ++ [g]) = checkListE (cylCheck a) a.features
    rw [show cylCheck { a with features := a.features ++ [g] } = cylCheck a
      from rfl]
    rw [checkListE_append]
    cases hres : checkListE (cylCheck a) a.features with
    | error e => rfl
    | ok u =>
      cases u
      show checkListE (cylCheck a) [g] = Except.ok ()
      simp only [checkListE, hg]
  unfold buildTree
  rw [hc]
  rfl

/-- C8: an unsuppressed mate record whose type tag is `"SCREW"` (outside
the closed mapping) gets the MuJoCo type `"unknown"` and a diagnostic
appended to `potential_issues`; classification never aborts (it is a total
function); and adding such a mate to a converter input leaves the
serialized output unchanged — zero joint or actuator elements are
attributable to it and the run completes exactly as without it. -/
theorem C8_unknown_mate_diagnostic (feats : List AsmFeature) (f : AsmFeature)
    (hmem : f ∈ feats) (hft : f.featureType = "mate") (hsup : f.suppressed = false)
    (hmt : (mateParams f).1 = "SCREW") :
    issueMsg f ∈ (analyze_for_mujoco feats).issues ∧
    jointInfoOf f ∈ (analyze_for_mujoco feats).joints ∧
    (jointInfoOf f).mujocoType = some "unknown" ∧
    (∀ (a : Assembly) (ms : List MeshEntry) (g : CFeature),
      g.mateType = "SCREW" →
        convert { a with features := a.features ++ [g] } ms = convert a ms) := by
  have hrec : f ∈ mateRecords feats := by
    unfold mateRecords
    rw [List.mem_filter]
    exact ⟨hmem, by rw [hft, hsup]; rfl⟩
  have hunk : mujocoOf (mateParams f).1 = some "unknown" := by rw [hmt]; rfl
  refine ⟨?_, ?_, ?_, ?_⟩
  · unfold analyze_for_mujoco
    rw [List.mem_filterMap]
    exact ⟨f, hrec, by rw [hunk]; rfl⟩
  · unfold analyze_for_mujoco
    rw [List.mem_map]
    exact ⟨f, hrec, rfl⟩
  · unfold jointInfoOf
    exact hunk
  · intro a ms g hgm
    unfold convert
    rw [buildTree_append_feature a g (by unfold cylCheck; rw [hgm]; rfl)]

/-- A `"SCREW"` mate feature record. -/
def ScrewFeat : AsmFeature :=
  ⟨"Screw mate 1", "mate", false,
    [("mateType", "SCREW"), ("limitAxialZMin", "0 deg")]⟩

/-- Witness for C8: the concrete `"SCREW"` mate yields its diagnostic, the
`"unknown"` MuJoCo type, and an unchanged converter output on the
synthetic assembly. -/
theorem C8_witness :
    issueMsg ScrewFeat ∈ (analyze_for_mujoco [ScrewFeat]).issues ∧
    (jointInfoOf ScrewFeat).mujocoType = some "unknown" ∧
    convert { SynAsm with
        features := SynAsm.features ++ [⟨"SCREW", [], []⟩] } SynMeshes
      = convert SynAsm SynMeshes :=
  ⟨(C8_unknown_mate_diagnostic [ScrewFeat] ScrewFeat (by simp) rfl rfl rfl).1,
   (C8_unknown_mate_diagnostic [ScrewFeat] ScrewFeat (by simp) rfl rfl rfl).2.2.1,
   (C8_unknown_mate_diagnostic [ScrewFeat] ScrewFeat (by simp) rfl rfl rfl).2.2.2
     SynAsm SynMeshes ⟨"SCREW", [], []⟩ rfl⟩

/-! ## C10 -/

/-- Equality of two converter mate records except for the limit
parameters. -/
def featSameButLimitsB (f g : CFeature) : Bool :=
  f.mateType == g.mateType && f.matedEntities == g.matedEntities

/-- Pairwise `featSameButLimitsB` over the feature lists. -/
def featsSameButLimitsB : List CFeature → List CFeature → Bool
  | [], [] => true
  | f :: fs, g :: gs => featSameButLimitsB f g && featsSameButLimitsB fs gs
  | _, _ => false

theorem cylCheck_congr (a a2 : Assembly) (hGI : getInstE a = getInstE a2)
    {f g : CFeature} (hfg : featSameButLimitsB f g = true) :
    cylCheck a f = cylCheck a2 g := by
  unfold featSameButLimitsB at hfg
  simp only [Bool.and_eq_true, beq_iff_eq] at hfg
  obtain ⟨h1, h2⟩ := hfg
  unfold cylCheck
  rw [h1, h2, hGI]

theorem checkListE_cyl_congr (a a2 : Assembly) (hGI : getInstE a = getInstE a2) :
    ∀ fs gs, featsSameButLimitsB fs gs = true →
      checkListE (cylCheck a) fs = checkListE (cylCheck a2) gs := by
  intro fs
  induction fs with
  | nil =>
    intro gs h
    cases gs with
    | nil => rfl
    | cons g gs => simp [featsSameButLimitsB] at h
  | cons f fs ih =>
    intro gs h
    cases gs with
    | nil => simp [featsSameButLimitsB] at h
    | cons g gs =>
      simp only [featsSameButLimitsB, Bool.and_eq_true] at h
      obtain ⟨h1, h2⟩ := h
      simp only [checkListE]
      rw [cylCheck_congr a a2 hGI h1, ih gs h2]

/-- C10: two converter inputs that differ only in the mates' limit
parameter values produce identical outputs, and in every successful output
the joint element's range is the constant [-1.5708, 1.5708] and its
damping the constant 0.01 (`converter.py:176`): range and damping are not
functions of the input limits. -/
theorem C10_limits_do_not_flow (a a2 : Assembly) (ms : List MeshEntry)
    (hI : a.instances = a2.instances) (hO : a.occurrences = a2.occurrences)
    (hF : featsSameButLimitsB a.features a2.features = true) :
    convert a ms = convert a2 ms ∧
    (∀ out, convert a ms = Except.ok out → ∀ j ∈ out.root.jointsOf,
      j.rangeMin = -(15708 / 10000) ∧ j.rangeMax = 15708 / 10000 ∧
        j.damping = 1 / 100) := by
  constructor
  · have hIF : instFind a = instFind a2 := funext fun k => by
      unfold instFind; rw [hI]
    have hOF : occFind a = occFind a2 := funext fun k => by
      unfold occFind; rw [hO]
    have hGI : getInstE a = getInstE a2 := funext fun k => by
      unfold getInstE; rw [hIF]
    have hGO : getOccKE a = getOccKE a2 := funext fun k => by
      unfold getOccKE; rw [hOF]
    have hRoot : rootKey a = rootKey a2 := by unfold rootKey; rw [hO, hI]
    have hScan : nameScan a = nameScan a2 := by unfold nameScan; rw [hI]
    have hOcc : occInstCheck a = occInstCheck a2 := by
      unfold occInstCheck; rw [hO, hGI]
    have hCyl : checkListE (cylCheck a) a.features
        = checkListE (cylCheck a2) a2.features :=
      checkListE_cyl_congr a a2 hGI a.features a2.features hF
    have hBT : buildTree a = buildTree a2 := by
      unfold buildTree
      rw [hGI, hRoot, hGO, hOcc, hCyl, hScan]
    unfold convert
    rw [hBT]
  · intro out h j hj
    obtain ⟨b, f1, f2, f3, f4, hb, hout⟩ := convert_ok h
    subst hout
    rw [show (mkMjcf b f1 f2 f3 f4).root = motorBody b from rfl,
      jointsOf_motorBody] at hj
    simp only [List.mem_singleton] at hj
    subst hj
    refine ⟨?_, ?_, ?_⟩ <;> norm_num [servoJoint, Rat.mkRat_eq_div]

/-- The synthetic assembly with different mate limit values. -/
def SynAsmLimits2 : Assembly :=
  { SynAsm with
    features :=
      [⟨"CYLINDRICAL",
        [⟨"h1", (0, 1, 0), (mkRat 1 10, 0, 0)⟩, ⟨"m1", (0, 1, 0), (0, 0, 0)⟩],
        [("limitAxialZMin", "-90 deg"), ("limitAxialZMax", "90 deg")]⟩] }

/-- Witness for C10: changing the synthetic mate's limits changes nothing,
and the emitted joint carries the constant range and damping. -/
theorem C10_witness :
    convert SynAsm SynMeshes = convert SynAsmLimits2 SynMeshes ∧
      (servoJoint.rangeMin = -(15708 / 10000)
        ∧ servoJoint.rangeMax = 15708 / 10000 ∧ servoJoint.damping = 1 / 100) :=
  ⟨(C10_limits_do_not_flow SynAsm SynAsmLimits2 SynMeshes rfl rfl (by decide)).1,
   (C10_limits_do_not_flow SynAsm SynAsmLimits2 SynMeshes rfl rfl (by decide)).2
     SynOut rfl servoJoint
     (by rw [show SynOut.root = motorBody SynBuilt from rfl, jointsOf_motorBody]
         simp)⟩

/-! ## C9 -/

/-- Splitting a character list at a separator character. -/
def splitChar (c : Char) : List Char → List (List Char)
  | [] => [[]]
  | a :: rest =>
    let r := splitChar c rest
    if a == c then [] :: r
    else
      match r with
      | [] => [[a]]
      | h :: t => (a :: h) :: t

/-- A token is in fixed six-decimal form: one decimal point, a nonempty
integer part, and exactly six digits after the point. -/
def sixDecTokB (tok : List Char) : Bool :=
  match splitChar '.' tok with
  | [a, b] => !a.isEmpty && b.length == 6 && b.all Char.isDigit
  | _ => false

/-- A space-separated attribute string whose every token is in fixed
six-decimal form. -/
def sixDecVecB (s : String) : Bool :=
  !(splitChar ' ' s.data).isEmpty && (splitChar ' ' s.data).all sixDecTokB

example : sixDecVecB "0.100000 0.000000 0.000000" = true := by decide
example : sixDecVecB "0 0 0" = false := by decide

/-- Fixed six-decimal formatting over the reals, for the quaternion
attribute fields (same rendering as `fmt6`, rounding half up). -/
theorem fmt6R_sixDecimals (x : ℝ) :
    ∃ pre k, fmt6R x = pre ++ ("." ++ pad6 k) ∧ (pad6 k).length = 6 := by
  refine ⟨(if ⌊x * 1000000 + 1 / 2⌋ < 0 then "-" else "")
      ++ toString (⌊x * 1000000 + 1 / 2⌋.natAbs / 1000000),
    ⌊x * 1000000 + 1 / 2⌋.natAbs % 1000000, ?_, rfl⟩
  simp [fmt6R, intToFixed6, String.append_assoc]

/-- C9 (amended): every body position attribute in the serialized output
is `fmt_pos` of a vector (three fixed six-decimal renderings), and every
body or geom quaternion attribute is `fmt_quat` of a quaternion (four
fixed six-decimal renderings, see `fmt6_sixDecimals` and
`fmt6R_sixDecimals`); and for the synthetic 4-occurrence assembly the
mover body serializes its local position to exactly
`"0.100000 0.000000 0.000000"`.  Constant template fields (inertial
positions, the ground geom, the light) are plain literals such as
`"0 0 0"` and are NOT six-decimal formatted — see the counterexample. -/
theorem C9_sixDecimal_tree_fields :
    (∀ (a : Assembly) (ms : List MeshEntry) (out : Mjcf),
        convert a ms = Except.ok out →
        ∀ bd ∈ out.root.allBodies,
          (∃ v : Vec3, bd.posStr = fmt_pos v) ∧
          (∀ s, bd.quatAttr = some s ∨ bd.geomQuatAttr = some s →
            ∃ r0 r1 r2 r3 : ℝ,
              s = fmt6R r0 ++ " " ++ fmt6R r1 ++ " " ++ fmt6R r2 ++ " "
                ++ fmt6R r3)) ∧
    (∃ mover ∈ SynOut.root.allBodies, mover.name = "horn" ∧
        mover.posStr = "0.100000 0.000000 0.000000" ∧
        sixDecVecB mover.posStr = true) := by
  constructor
  · intro a ms out h bd hbd
    obtain ⟨b, f1, f2, f3, f4, hb, hout⟩ := convert_ok h
    subst hout
    rw [show (mkMjcf b f1 f2 f3 f4).root = motorBody b from rfl,
      allBodies_motorBody] at hbd
    simp only [List.mem_cons, List.not_mem_nil, or_false] at hbd
    rcases hbd with h1 | h1 | h1 | h1 <;> subst h1
    · exact ⟨⟨b.motorPos, rfl⟩, fun s hs => by
        rcases hs with hs | hs
        · have : s = fmt_quat (quatMujoco b.motorRot) := by
            simpa [motorBody, XBody.quatAttr] using hs.symm
          exact ⟨_, _, _, _, by rw [this]; rfl⟩
        · exact absurd hs (by simp [motorBody, XBody.geomQuatAttr])⟩
    · exact ⟨⟨b.j2Rel, rfl⟩, fun s hs => by
        rcases hs with hs | hs
        · exact absurd hs (by simp [j2Body, XBody.quatAttr])
        · have : s = fmt_quat (quatMujoco b.j2Rot) := by
            simpa [j2Body, XBody.geomQuatAttr] using hs.symm
          exact ⟨_, _, _, _, by rw [this]; rfl⟩⟩
    · exact ⟨⟨b.hornRel, rfl⟩, fun s hs => by
        rcases hs with hs | hs
        · exact absurd hs (by simp [hornBody, XBody.quatAttr])
        · have : s = fmt_quat (quatMujoco b.hornRot) := by
            simpa [hornBody, XBody.geomQuatAttr] using hs.symm
          exact ⟨_, _, _, _, by rw [this]; rfl⟩⟩
    · exact ⟨⟨b.j1Rel, rfl⟩, fun s hs => by
        rcases hs with hs | hs
        · exact absurd hs (by simp [j1Body, XBody.quatAttr])
        · have : s = fmt_quat (quatMujoco b.j1Rot) := by
            simpa [j1Body, XBody.geomQuatAttr] using hs.symm
          exact ⟨_, _, _, _, by rw [this]; rfl⟩⟩
  · refine ⟨hornBody SynBuilt, ?_, rfl, ?_, ?_⟩
    · rw [show SynOut.root = motorBody SynBuilt from rfl, allBodies_motorBody]
      simp
    · show fmt_pos SynBuilt.hornRel = _
      rw [show SynBuilt.hornRel = (mkRat 1 10, 0, 0) from by simp [SynBuilt, sub3]]
      decide
    · show sixDecVecB (fmt_pos SynBuilt.hornRel) = true
      rw [show SynBuilt.hornRel = (mkRat 1 10, 0, 0) from by simp [SynBuilt, sub3]]
      decide

/-- Witness for C9 at the synthetic output. -/
theorem C9_witness :
    ∃ v : Vec3, (hornBody SynBuilt).posStr = fmt_pos v :=
  ((C9_sixDecimal_tree_fields.1 SynAsm SynMeshes SynOut rfl)
    (hornBody SynBuilt)
    (by rw [show SynOut.root = motorBody SynBuilt from rfl, allBodies_motorBody]
        simp)).1

/-- Counterexample to C9 as stated: the serialized output of the synthetic
assembly contains the position field `"0 0 0"` (the ground geom position,
`converter.py:158`, and likewise every inertial position attribute), which
is not in fixed six-decimal form, so not every numeric position field of
the output is six-decimal formatted. -/
theorem C9_counterexample :
    convert SynAsm SynMeshes = Except.ok SynOut ∧
      "0 0 0" ∈ SynOut.posFields ∧ sixDecVecB "0 0 0" = false ∧
      (hornBody SynBuilt).inertialPosStr = "0 0 0" := by
  refine ⟨rfl, ?_, by decide, rfl⟩
  show "0 0 0" ∈ SynOut.groundPosStr :: _
  exact List.mem_cons_self _ _

end OnMj
